import Mathlib

/-!
Verification of the systems-and-interfaces navigator core: the descendant
resolver, interface classifier, available-systems computation, graph builder,
revision diff renderer, mutation handlers, and the fetch-commit path, as a
shallow embedding of the TypeScript source.
-/

set_option maxRecDepth 4000

namespace SystemTraversal

/-- A row of the systems table as carried by the interface panel
(src InterfacePanel, interface System): id, name, category and an optional
depth tag added by the descendant resolver. -/
structure SysRec where
  id : String
  name : String
  category : String
  depth : Option Nat := none
deriving DecidableEq, Repr

/-- An interface row as carried by the interface panel (interface Interface):
the two endpoint ids, connection label, directional flag, and the optional
enriched endpoint records (null when the endpoint lookup failed). -/
structure IfaceRec where
  id : String
  system1_id : String
  system2_id : String
  connection : String
  directional : Nat
  system1 : Option SysRec := none
  system2 : Option SysRec := none
deriving DecidableEq, Repr

namespace InterfacePanel

/-- True when either endpoint of the interface equals the current system id
(the first branch of groupInterfacesByLevel). -/
def isDirect (systemId : String) (i : IfaceRec) : Bool :=
  i.system1_id == systemId || i.system2_id == systemId

/-- True when either endpoint of the interface is among the direct children
(the second branch of groupInterfacesByLevel). -/
def touchesChild (directChildren : List SysRec) (i : IfaceRec) : Bool :=
  directChildren.any (fun child => child.id == i.system1_id) ||
  directChildren.any (fun child => child.id == i.system2_id)

/-- The three classified groups returned by groupInterfacesByLevel. -/
structure Groups where
  directInterfaces : List IfaceRec
  childrenInterfaces : List IfaceRec
  grandchildrenInterfaces : List IfaceRec
deriving DecidableEq, Repr

/-- Embedding of groupInterfacesByLevel: the source iterates over the
interfaces in order and pushes each one into exactly one of the three arrays,
first testing the current system, then the direct children, with the
grandchildren array as the catch-all. The recursion below produces the same
three lists in the same order as the forEach-push loop. -/
def groupInterfacesByLevel (systemId : String) (directChildren : List SysRec) :
    List IfaceRec → Groups
  | [] => ⟨[], [], []⟩
  | i :: rest =>
    let g := groupInterfacesByLevel systemId directChildren rest
    if isDirect systemId i then
      ⟨i :: g.directInterfaces, g.childrenInterfaces, g.grandchildrenInterfaces⟩
    else if touchesChild directChildren i then
      ⟨g.directInterfaces, i :: g.childrenInterfaces, g.grandchildrenInterfaces⟩
    else
      ⟨g.directInterfaces, g.childrenInterfaces, i :: g.grandchildrenInterfaces⟩

/-- JavaScript string fallback: the expression a || b yields b when a is
absent (undefined) or the empty string, both of which are falsy. -/
def jsFalsyOr (a : Option String) (b : String) : String :=
  match a with
  | some s => if s = "" then b else s
  | none => b

/-- The current-system record synthesised by getAvailableSystems: the source
scans the interfaces for one touching the current id and pulls name/category
from its enriched endpoint, falling back to a placeholder. -/
def currentSystemOf (systemId : String) (interfaces : List IfaceRec) : SysRec :=
  let currentSystemData :=
    interfaces.find? (fun i => i.system1_id == systemId || i.system2_id == systemId)
  let name1 : Option String :=
    match currentSystemData with
    | some i => if i.system1_id == systemId then i.system1.map (fun s => s.name) else none
    | none => none
  let name2 : Option String :=
    match currentSystemData with
    | some i => if i.system2_id == systemId then i.system2.map (fun s => s.name) else none
    | none => none
  let cat1 : Option String :=
    match currentSystemData with
    | some i => if i.system1_id == systemId then i.system1.map (fun s => s.category) else none
    | none => none
  let cat2 : Option String :=
    match currentSystemData with
    | some i => if i.system2_id == systemId then i.system2.map (fun s => s.category) else none
    | none => none
  { id := systemId
    name := jsFalsyOr name1 (jsFalsyOr name2 "Current System")
    category := jsFalsyOr cat1 (jsFalsyOr cat2 "") }

/-- One endpoint check of the external-system scan in getAvailableSystems: the
enriched endpoint record is pushed when the endpoint id is not a child, not a
grandchild, not the current system, and not already collected, and the record
itself is present (truthy). -/
def pushExternal (systemId : String) (dc gc acc : List SysRec)
    (endpointId : String) (endpoint : Option SysRec) : List SysRec :=
  match endpoint with
  | some s =>
    if !(dc.any (fun c => c.id == endpointId)) &&
       !(gc.any (fun c => c.id == endpointId)) &&
       endpointId != systemId &&
       !(acc.any (fun c => c.id == endpointId)) then acc ++ [s] else acc
  | none => acc

/-- One iteration of the external-system scan in getAvailableSystems: for each
interface the source runs the same check first for the system1 endpoint and then
for the system2 endpoint against the already-updated array. -/
def extStep (systemId : String) (dc gc : List SysRec) (acc : List SysRec)
    (i : IfaceRec) : List SysRec :=
  pushExternal systemId dc gc
    (pushExternal systemId dc gc acc i.system1_id i.system1)
    i.system2_id i.system2

/-- The connectedExternalSystems array accumulated by getAvailableSystems. -/
def connectedExternalSystems (systemId : String) (dc gc : List SysRec)
    (interfaces : List IfaceRec) : List SysRec :=
  interfaces.foldl (extStep systemId dc gc) []

/-- Invariant of the external-system accumulator: its ids are duplicate-free
and none of them is a child id, a grandchild id, or the current system id. -/
def ExtInv (systemId : String) (dc gc : List SysRec) (acc : List SysRec) : Prop :=
  (acc.map SysRec.id).Nodup ∧
  ∀ s ∈ acc, (∀ c ∈ dc, c.id ≠ s.id) ∧ (∀ c ∈ gc, c.id ≠ s.id) ∧ s.id ≠ systemId

/-- Embedding of getAvailableSystems: the synthesised current system, then the
direct children, the grandchildren, and the connected external systems, in
source order. -/
def getAvailableSystems (systemId : String) (dc gc : List SysRec)
    (interfaces : List IfaceRec) : List SysRec :=
  currentSystemOf systemId interfaces :: dc ++ gc ++
    connectedExternalSystems systemId dc gc interfaces

/-- Depth tagging applied by fetchDescendants to fetched rows. -/
def tagDepth (d : Nat) (s : SysRec) : SysRec := { s with depth := some d }

/-- Embedding of the grandchild-accumulation loop of fetchDescendants: for
each direct child the grandchild rows are fetched; a failed fetch (none) hits
the continue branch and contributes nothing, a successful non-empty fetch is
depth-tagged and appended. The fetch oracle maps a child id to its fetch
result, none standing for a store error. -/
def fetchGrandchildren (children : List SysRec)
    (fetchG : String → Option (List SysRec)) : List SysRec :=
  children.foldl
    (fun acc child =>
      match fetchG child.id with
      | none => acc
      | some gd => if gd.length > 0 then acc ++ gd.map (tagDepth 2) else acc)
    []

/-- Embedding of fetchDescendants: on a failed children fetch the function
returns the empty list; otherwise it returns the depth-1-tagged children
followed by the accumulated depth-2-tagged grandchildren. -/
def fetchDescendants (childrenRes : Option (List SysRec))
    (fetchG : String → Option (List SysRec)) : List SysRec :=
  match childrenRes with
  | none => []
  | some children => children.map (tagDepth 1) ++ fetchGrandchildren children fetchG

end InterfacePanel

namespace RevisionHistory

/-- A JSON object snapshot carried by a revision row, modelled as an
association list from keys to values. The value type is kept abstract with
decidable equality standing for equality of canonical JSON serialisations,
which the source compares via JSON.stringify. -/
abbrev Snapshot (V : Type) := List (String × V)

/-- Property access previousData[key]: the first binding of the key, none
standing for the JavaScript undefined of an absent key. -/
def lookupJs {V : Type} (s : Snapshot V) (k : String) : Option V :=
  (s.find? (fun kv => kv.1 == k)).map (fun kv => kv.2)

/-- Key deduplication with first-occurrence order, as performed by spreading
the key arrays through a JavaScript Set. -/
def dedupFirst : List String → List String
  | [] => []
  | k :: ks => k :: (dedupFirst ks).filter (fun x => x ≠ k)

/-- One rendered change line of the update diff. -/
structure DiffEntry (V : Type) where
  key : String
  oldValue : Option V
  newValue : Option V
deriving DecidableEq, Repr

/-- The change entries rendered by renderDiff for an update revision: the
snapshots default to the empty object when null, the key sets are unioned and
deduplicated, and a key is emitted exactly when its serialised old and new
values differ. -/
def updateEntries {V : Type} [DecidableEq V]
    (previous_data new_data : Option (Snapshot V)) : List (DiffEntry V) :=
  let previousData := previous_data.getD []
  let newData := new_data.getD []
  let allKeys := dedupFirst (previousData.map (fun kv => kv.1) ++
    newData.map (fun kv => kv.1))
  allKeys.filterMap (fun k =>
    let oldValue := lookupJs previousData k
    let newValue := lookupJs newData k
    if oldValue ≠ newValue then some ⟨k, oldValue, newValue⟩ else none)

/-- The rendered diff of a revision row. -/
inductive RenderedDiff (V : Type) where
  | createD : Option (Snapshot V) → RenderedDiff V
  | deleteD : Option (Snapshot V) → RenderedDiff V
  | updateD : List (DiffEntry V) → RenderedDiff V
  | nothingD : RenderedDiff V
deriving DecidableEq, Repr

/-- Embedding of renderDiff: create renders new_data wholesale, delete renders
previous_data wholesale, update renders the changed-key entries, and any other
operation renders nothing. -/
def renderDiff {V : Type} [DecidableEq V] (operation : String)
    (previous_data new_data : Option (Snapshot V)) : RenderedDiff V :=
  if operation = "create" then .createD new_data
  else if operation = "delete" then .deleteD previous_data
  else if operation = "update" then .updateD (updateEntries previous_data new_data)
  else .nothingD

end RevisionHistory

namespace SystemGraph

/-- A systems row as used by the graph component, carrying the parent link. -/
structure SysRow where
  id : String
  name : String
  category : String
  parent_id : Option String := none
deriving DecidableEq, Repr

/-- A raw interface row as fetched by the graph component. -/
structure IfaceRow where
  id : String
  system1_id : String
  system2_id : String
  connection : String
  directional : Nat
deriving DecidableEq, Repr

/-- A graph node: id, display label, category, and the visual tier tag. -/
structure GNode where
  id : String
  label : String
  category : String
  tier : String
deriving DecidableEq, Repr

/-- A graph edge: id, endpoints, and the connection label carried only by
interface-derived edges (structural edges are unlabelled). -/
structure GEdge where
  id : String
  source : String
  target : String
  label : Option String := none
deriving DecidableEq, Repr

/-- The center node pushed for the current system. -/
def centerNode (systemId : String) (systemData : SysRow) : GNode :=
  ⟨systemId, systemData.name, systemData.category, "current"⟩

/-- A node pushed for a direct child system. -/
def childNode (s : SysRow) : GNode := ⟨s.id, s.name, s.category, "child"⟩

/-- A node pushed for a grandchild system. -/
def grandchildNode (s : SysRow) : GNode := ⟨s.id, s.name, s.category, "grandchild"⟩

/-- The structural edge from the center to a child. -/
def childEdge (systemId : String) (s : SysRow) : GEdge :=
  ⟨"e-center-" ++ s.id, systemId, s.id, none⟩

/-- The structural edge from a child to its grandchild. -/
def parentEdge (p s : SysRow) : GEdge := ⟨"e-parent-" ++ s.id, p.id, s.id, none⟩

/-- The relationship edge derived from an interface row. -/
def ifaceEdge (i : IfaceRow) : GEdge :=
  ⟨"e-" ++ i.id, i.system1_id, i.system2_id, some i.connection⟩

/-- The grandchild nodes pushed by fetchSystemData: a grandchild is added only
when its parent_id matches some fetched child (the findIndex check). -/
def grandchildNodes (cs gcs : List SysRow) : List GNode :=
  gcs.filterMap (fun g =>
    (cs.find? (fun c => some c.id == g.parent_id)).map (fun _ => grandchildNode g))

/-- The child-to-grandchild structural edges pushed by fetchSystemData, with
the source taken from the first matching child. -/
def grandchildEdges (cs gcs : List SysRow) : List GEdge :=
  gcs.filterMap (fun g =>
    (cs.find? (fun c => some c.id == g.parent_id)).map (fun p => parentEdge p g))

/-- The node array built by fetchSystemData: the center node, one node per
child, and one node per grandchild whose parent was fetched. -/
def buildNodes (systemId : String) (systemData : SysRow) (cs gcs : List SysRow) :
    List GNode :=
  centerNode systemId systemData :: cs.map childNode ++ grandchildNodes cs gcs

/-- The interface-derived edges pushed by fetchSystemData: one edge per
interface whose two endpoint ids both occur in the node array. -/
def relationshipEdges (nodes : List GNode) (ifs : List IfaceRow) : List GEdge :=
  (ifs.filter (fun i =>
    nodes.any (fun node => node.id == i.system1_id) &&
    nodes.any (fun node => node.id == i.system2_id))).map ifaceEdge

/-- The edge array built by fetchSystemData: the structural center-to-child
and child-to-grandchild edges followed by the relationship edges. -/
def buildEdges (systemId : String) (systemData : SysRow) (cs gcs : List SysRow)
    (ifs : List IfaceRow) : List GEdge :=
  cs.map (childEdge systemId) ++ grandchildEdges cs gcs ++
    relationshipEdges (buildNodes systemId systemData cs gcs) ifs

/-- The full node/edge graph assembled by fetchSystemData before layout. -/
def buildGraph (systemId : String) (systemData : SysRow) (cs gcs : List SysRow)
    (ifs : List IfaceRow) : List GNode × List GEdge :=
  (buildNodes systemId systemData cs gcs, buildEdges systemId systemData cs gcs ifs)

/-- A pending connection drawn in the UI. -/
structure Connection where
  source : String
  target : String
deriving DecidableEq, Repr

/-- Models the addEdge helper of the graph library: the drawn connection is
appended to the edge list as a new edge. -/
def addEdgeJs (p : Connection) (eds : List GEdge) : List GEdge :=
  eds ++ [⟨"xy-edge-" ++ p.source ++ "-" ++ p.target, p.source, p.target, none⟩]

/-- The graph-local component state touched by onConnect: the edge list and
whether a reload of the graph data has been requested. -/
structure GraphState where
  edges : List GEdge
  refreshRequested : Bool
deriving DecidableEq, Repr

/-- Embedding of onConnect: the interface-creation RPC either succeeds, in
which case the graph data is reloaded, or fails, in which case only the error
is logged; in both cases the drawn edge is appended to the local edge state
for immediate feedback, with no rollback on failure. -/
def onConnect (rpc : Except String String) (p : Connection) (s : GraphState) :
    GraphState :=
  let afterRpc :=
    match rpc with
    | .error _ => s
    | .ok _ => { s with refreshRequested := true }
  { afterRpc with edges := addEdgeJs p afterRpc.edges }

end SystemGraph

namespace InterfacePanel

/-- The add-interface form fields. -/
structure FormData where
  system1_id : String
  system2_id : String
  connection : String
  directional : Nat
deriving DecidableEq, Repr

/-- The reset form value. -/
def emptyForm : FormData := ⟨"", "", "", 0⟩

/-- The panel-local component state touched by handleAddInterface. -/
structure PanelUIState where
  formData : FormData
  isAddModalOpen : Bool
  refreshRequested : Bool
deriving DecidableEq, Repr

/-- Embedding of handleAddInterface: the awaited RPC either throws, in which
case the catch block only logs and no state is touched, or succeeds, in which
case the form is reset, the modal closed, and the list reloaded. -/
def handleAddInterface (rpc : Except String String) (s : PanelUIState) :
    PanelUIState :=
  match rpc with
  | .error _ => s
  | .ok _ => { formData := emptyForm, isAddModalOpen := false, refreshRequested := true }

/-- An event in the root-navigation/fetch interleaving: either the current
root id changes (starting a fetch for the new root), or a fetch started for
some root completes and its result is committed. -/
inductive FetchEv where
  | changeRoot : String → FetchEv
  | complete : String → FetchEv
deriving DecidableEq, Repr

/-- The state observed at the commit points of fetchInterfaces and
fetchSystemData: the current root id and the committed result, tagged by the
root the fetch originated from (none before any commit). -/
structure FetchState where
  root : String
  committed : Option String
deriving DecidableEq, Repr

/-- The commit path of fetchInterfaces/fetchSystemData: the completion handler
stores the fetched result unconditionally; the source contains no comparison
of the originating root id with the current root id. -/
def commitResult (s : FetchState) (originRoot : String) : FetchState :=
  { s with committed := some originRoot }

/-- One step of the interleaving model. -/
def stepFetch (s : FetchState) : FetchEv → FetchState
  | .changeRoot r => { s with root := r }
  | .complete r => commitResult s r

/-- Run a sequence of events from an initial state. -/
def runFetch (s0 : FetchState) (evs : List FetchEv) : FetchState :=
  evs.foldl stepFetch s0

/-- Trace well-formedness relative to the set of roots for which a fetch has
been started: a completion may only occur for a started root. -/
def wfFrom (started : List String) : List FetchEv → Bool
  | [] => true
  | .changeRoot r :: evs => wfFrom (r :: started) evs
  | .complete r :: evs => started.contains r && wfFrom started evs

/-- A trace is well formed when every completion corresponds to a fetch
started for the initial root or for a root navigated to earlier. -/
def WfTrace (s0 : FetchState) (evs : List FetchEv) : Bool :=
  wfFrom [s0.root] evs

end InterfacePanel

/-!
### Lemmas about the interface classifier
-/

namespace InterfacePanel

theorem group_direct_eq (systemId : String) (dc : List SysRec) (ifs : List IfaceRec) :
    (groupInterfacesByLevel systemId dc ifs).directInterfaces =
      ifs.filter (isDirect systemId) := by
  induction ifs with
  | nil => rfl
  | cons i rest ih =>
    simp only [groupInterfacesByLevel, List.filter]
    by_cases h1 : isDirect systemId i
    · simp [h1, ih]
    · by_cases h2 : touchesChild dc i <;> simp [h1, h2, ih]

theorem group_children_eq (systemId : String) (dc : List SysRec) (ifs : List IfaceRec) :
    (groupInterfacesByLevel systemId dc ifs).childrenInterfaces =
      ifs.filter (fun i => !isDirect systemId i && touchesChild dc i) := by
  induction ifs with
  | nil => rfl
  | cons i rest ih =>
    simp only [groupInterfacesByLevel, List.filter]
    by_cases h1 : isDirect systemId i
    · simp [h1, ih]
    · by_cases h2 : touchesChild dc i <;> simp [h1, h2, ih]

theorem group_grandchildren_eq (systemId : String) (dc : List SysRec) (ifs : List IfaceRec) :
    (groupInterfacesByLevel systemId dc ifs).grandchildrenInterfaces =
      ifs.filter (fun i => !isDirect systemId i && !touchesChild dc i) := by
  induction ifs with
  | nil => rfl
  | cons i rest ih =>
    simp only [groupInterfacesByLevel, List.filter]
    by_cases h1 : isDirect systemId i
    · simp [h1, ih]
    · by_cases h2 : touchesChild dc i <;> simp [h1, h2, ih]

theorem group_count (systemId : String) (dc : List SysRec) (ifs : List IfaceRec)
    (i : IfaceRec) :
    (groupInterfacesByLevel systemId dc ifs).directInterfaces.count i +
    (groupInterfacesByLevel systemId dc ifs).childrenInterfaces.count i +
    (groupInterfacesByLevel systemId dc ifs).grandchildrenInterfaces.count i =
      ifs.count i := by
  rw [group_direct_eq, group_children_eq, group_grandchildren_eq]
  have hz : ∀ p : IfaceRec → Bool, p i = false → (ifs.filter p).count i = 0 := by
    intro p hp
    exact List.count_eq_zero.2 (fun hmem => by
      rcases List.mem_filter.1 hmem with ⟨-, hpi⟩
      rw [hp] at hpi
      exact Bool.false_ne_true hpi)
  by_cases h1 : isDirect systemId i
  · rw [List.count_filter h1, hz _ (by simp [h1]), hz _ (by simp [h1])]
    omega
  · by_cases h2 : touchesChild dc i
    · rw [hz _ (by simp [h1]), List.count_filter (by simp [h1, h2]),
        hz _ (by simp [h2])]
      omega
    · rw [hz _ (by simp [h1]), hz _ (by simp [h2]),
        List.count_filter (by simp [h1, h2])]
      omega

theorem group_mem_one (systemId : String) (dc : List SysRec) (ifs : List IfaceRec)
    (i : IfaceRec) (hi : i ∈ ifs) :
    i ∈ (groupInterfacesByLevel systemId dc ifs).directInterfaces ∨
    i ∈ (groupInterfacesByLevel systemId dc ifs).childrenInterfaces ∨
    i ∈ (groupInterfacesByLevel systemId dc ifs).grandchildrenInterfaces := by
  rw [group_direct_eq, group_children_eq, group_grandchildren_eq]
  by_cases h1 : isDirect systemId i
  · exact Or.inl (List.mem_filter.2 ⟨hi, h1⟩)
  · by_cases h2 : touchesChild dc i
    · exact Or.inr (Or.inl (List.mem_filter.2 ⟨hi, by simp [h1, h2]⟩))
    · exact Or.inr (Or.inr (List.mem_filter.2 ⟨hi, by simp [h1, h2]⟩))

/-- C1: for every interface list and resolved root/children sets,
groupInterfacesByLevel assigns each interface to exactly one group by priority
order: to direct iff an endpoint equals the root id; otherwise to children iff
an endpoint is a member of the children set; otherwise to grandchildren. An
interface touching both the root and a child lands in direct and never in
children, and occurrence counts are preserved, so nothing is duplicated or
dropped. -/
theorem claim1_classifier_partition (systemId : String) (dc : List SysRec)
    (ifs : List IfaceRec) :
    (∀ i, i ∈ (groupInterfacesByLevel systemId dc ifs).directInterfaces ↔
      i ∈ ifs ∧ isDirect systemId i = true) ∧
    (∀ i, i ∈ (groupInterfacesByLevel systemId dc ifs).childrenInterfaces ↔
      i ∈ ifs ∧ isDirect systemId i = false ∧ touchesChild dc i = true) ∧
    (∀ i, i ∈ (groupInterfacesByLevel systemId dc ifs).grandchildrenInterfaces ↔
      i ∈ ifs ∧ isDirect systemId i = false ∧ touchesChild dc i = false) ∧
    (∀ i, (groupInterfacesByLevel systemId dc ifs).directInterfaces.count i +
      (groupInterfacesByLevel systemId dc ifs).childrenInterfaces.count i +
      (groupInterfacesByLevel systemId dc ifs).grandchildrenInterfaces.count i =
      ifs.count i) ∧
    (∀ i, i ∈ ifs → isDirect systemId i = true → touchesChild dc i = true →
      i ∈ (groupInterfacesByLevel systemId dc ifs).directInterfaces ∧
      i ∉ (groupInterfacesByLevel systemId dc ifs).childrenInterfaces) := by
  refine ⟨?_, ?_, ?_, group_count systemId dc ifs, ?_⟩
  · intro i
    rw [group_direct_eq]
    simp [List.mem_filter]
  · intro i
    rw [group_children_eq]
    simp [List.mem_filter, Bool.and_eq_true, Bool.not_eq_true']
  · intro i
    rw [group_grandchildren_eq]
    simp [List.mem_filter, Bool.and_eq_true, Bool.not_eq_true']
  · intro i hi hd _
    constructor
    · rw [group_direct_eq]
      exact List.mem_filter.2 ⟨hi, hd⟩
    · rw [group_children_eq]
      intro hmem
      rcases List.mem_filter.1 hmem with ⟨-, hp⟩
      rw [Bool.and_eq_true, Bool.not_eq_true'] at hp
      rw [hd] at hp
      exact absurd hp.1 (by simp)

/-- Witness for C1 at a concrete input: an interface touching both the root R
and the child C is classified direct and not children. -/
theorem claim1_witness :
    (⟨"i", "R", "C", "conn", 0, none, none⟩ : IfaceRec) ∈
      (groupInterfacesByLevel "R" [⟨"C", "Child", "c", some 1⟩]
        [⟨"i", "R", "C", "conn", 0, none, none⟩]).directInterfaces ∧
    (⟨"i", "R", "C", "conn", 0, none, none⟩ : IfaceRec) ∉
      (groupInterfacesByLevel "R" [⟨"C", "Child", "c", some 1⟩]
        [⟨"i", "R", "C", "conn", 0, none, none⟩]).childrenInterfaces :=
  (claim1_classifier_partition "R" [⟨"C", "Child", "c", some 1⟩]
      [⟨"i", "R", "C", "conn", 0, none, none⟩]).2.2.2.2
    ⟨"i", "R", "C", "conn", 0, none, none⟩ (by simp) (by decide) (by decide)

/-- C2 counterexample: on the scenario with root R, children C1 and C2, and
interfaces (R,C1), (C1,G1), (C2,X), the classifier does not return
children = [(C2,X)] and grandchildren = [(C1,G1)] as the claim states: the
edge (C1,G1) touches the child C1 and is therefore put in the children group,
leaving the grandchildren group empty. -/
theorem claim2_counterexample :
    groupInterfacesByLevel "R"
      [⟨"C1", "Child1", "cat", some 1⟩, ⟨"C2", "Child2", "cat", some 1⟩]
      [⟨"i1", "R", "C1", "conn", 0, none, none⟩,
       ⟨"i2", "C1", "G1", "conn", 0, none, none⟩,
       ⟨"i3", "C2", "X", "conn", 0, none, none⟩] ≠
    ⟨[⟨"i1", "R", "C1", "conn", 0, none, none⟩],
     [⟨"i3", "C2", "X", "conn", 0, none, none⟩],
     [⟨"i2", "C1", "G1", "conn", 0, none, none⟩]⟩ := by
  decide

/-- C2 amended: on the scenario with root R, children C1 and C2, and the
interface list [(R,C1), (C1,G1), (C2,X)], the classifier returns
direct = [(R,C1)], children = [(C1,G1), (C2,X)] and grandchildren = [],
because the (C1,G1) edge touches the child C1 and the priority rule places it
in the children group. -/
theorem claim2_amended_scenario :
    groupInterfacesByLevel "R"
      [⟨"C1", "Child1", "cat", some 1⟩, ⟨"C2", "Child2", "cat", some 1⟩]
      [⟨"i1", "R", "C1", "conn", 0, none, none⟩,
       ⟨"i2", "C1", "G1", "conn", 0, none, none⟩,
       ⟨"i3", "C2", "X", "conn", 0, none, none⟩] =
    ⟨[⟨"i1", "R", "C1", "conn", 0, none, none⟩],
     [⟨"i2", "C1", "G1", "conn", 0, none, none⟩,
      ⟨"i3", "C2", "X", "conn", 0, none, none⟩],
     []⟩ := by
  decide

theorem fetchGrandchildren_eq_flatten (children : List SysRec)
    (fetchG : String → Option (List SysRec)) :
    fetchGrandchildren children fetchG =
      (children.map fun c => ((fetchG c.id).getD []).map (tagDepth 2)).flatten := by
  suffices h : ∀ acc : List SysRec,
      children.foldl
        (fun acc child =>
          match fetchG child.id with
          | none => acc
          | some gd => if gd.length > 0 then acc ++ gd.map (tagDepth 2) else acc) acc =
      acc ++ (children.map fun c => ((fetchG c.id).getD []).map (tagDepth 2)).flatten by
    simpa [fetchGrandchildren] using h []
  induction children with
  | nil => intro acc; simp
  | cons c rest ih =>
    intro acc
    simp only [List.foldl_cons, List.map_cons, List.flatten_cons]
    cases hfc : fetchG c.id with
    | none => simp [ih]
    | some gd =>
      by_cases hlen : gd.length > 0
      · simp [hlen, ih, List.append_assoc]
      · have hnil : gd = [] := List.length_eq_zero.1 (by omega)
        subst hnil
        simp [ih]

/-- C6: the grandchild accumulation of fetchDescendants is the concatenation,
child by child, of the fetched grandchild lists with every failed branch
contributing the empty list; replacing each failed fetch by a successful empty
fetch changes nothing; and every grandchild of a child whose fetch succeeded
appears, depth-tagged, in the output of fetchDescendants, independently of
failures on the other children. -/
theorem claim6_partial_failure (children : List SysRec)
    (fetchG : String → Option (List SysRec)) :
    fetchGrandchildren children fetchG =
      (children.map fun c => ((fetchG c.id).getD []).map (tagDepth 2)).flatten ∧
    fetchGrandchildren children fetchG =
      fetchGrandchildren children (fun i => some ((fetchG i).getD [])) ∧
    (∀ c ∈ children, ∀ gs, fetchG c.id = some gs →
      ∀ g ∈ gs, tagDepth 2 g ∈ fetchDescendants (some children) fetchG) := by
  refine ⟨fetchGrandchildren_eq_flatten children fetchG, ?_, ?_⟩
  · rw [fetchGrandchildren_eq_flatten, fetchGrandchildren_eq_flatten]
    simp
  · intro c hc gs hgs g hg
    show tagDepth 2 g ∈ children.map (tagDepth 1) ++ fetchGrandchildren children fetchG
    apply List.mem_append_right
    rw [fetchGrandchildren_eq_flatten]
    refine List.mem_flatten.2 ⟨gs.map (tagDepth 2), ?_, List.mem_map_of_mem _ hg⟩
    exact List.mem_map.2 ⟨c, hc, by rw [hgs]; rfl⟩

/-- Witness for C6 at a concrete input: with two children where the grandchild
fetch fails for c1 and succeeds for c2, the grandchild of c2 still appears in
the resolver output. -/
theorem claim6_witness :
    tagDepth 2 ⟨"g", "G", "cat", none⟩ ∈
      fetchDescendants (some [⟨"c1", "A", "cat", none⟩, ⟨"c2", "B", "cat", none⟩])
        (fun i => if i = "c2" then some [⟨"g", "G", "cat", none⟩] else none) :=
  (claim6_partial_failure [⟨"c1", "A", "cat", none⟩, ⟨"c2", "B", "cat", none⟩]
      (fun i => if i = "c2" then some [⟨"g", "G", "cat", none⟩] else none)).2.2
    ⟨"c2", "B", "cat", none⟩ (by simp) [⟨"g", "G", "cat", none⟩] (by simp)
    ⟨"g", "G", "cat", none⟩ (by simp)

theorem foldl_inv {α σ : Type} {P : σ → Prop} (f : σ → α → σ) :
    ∀ (l : List α) (s : σ), P s → (∀ s a, a ∈ l → P s → P (f s a)) →
      P (l.foldl f s)
  | [], _, hs, _ => hs
  | a :: l, s, hs, hstep => by
    rw [List.foldl_cons]
    exact foldl_inv f l (f s a) (hstep s a (by simp) hs)
      (fun s b hb hPs => hstep s b (List.mem_cons_of_mem _ hb) hPs)

theorem pushCond_true_iff (systemId : String) (dc gc acc : List SysRec)
    (endpointId : String) :
    (!(dc.any (fun c => c.id == endpointId)) &&
     !(gc.any (fun c => c.id == endpointId)) &&
     endpointId != systemId &&
     !(acc.any (fun c => c.id == endpointId))) = true ↔
    ((∀ c ∈ dc, c.id ≠ endpointId) ∧ (∀ c ∈ gc, c.id ≠ endpointId) ∧
     endpointId ≠ systemId ∧ (∀ c ∈ acc, c.id ≠ endpointId)) := by
  simp only [Bool.and_eq_true, Bool.not_eq_true', List.any_eq_false,
    beq_iff_eq, bne_iff_ne, ne_eq]
  tauto

theorem pushExternal_extInv (systemId : String) (dc gc acc : List SysRec)
    (endpointId : String) (endpoint : Option SysRec)
    (hcons : ∀ s, endpoint = some s → s.id = endpointId)
    (hinv : ExtInv systemId dc gc acc) :
    ExtInv systemId dc gc (pushExternal systemId dc gc acc endpointId endpoint) := by
  cases endpoint with
  | none => exact hinv
  | some s =>
    have hsid : s.id = endpointId := hcons s rfl
    simp only [pushExternal]
    split_ifs with hcond
    · rcases (pushCond_true_iff systemId dc gc acc endpointId).1 hcond with
        ⟨hdcE, hgcE, hsysE, haccE⟩
      constructor
      · rw [List.map_append, List.nodup_append]
        refine ⟨hinv.1, by simp, ?_⟩
        intro a ha hb
        have hb2 : a = s.id := by simpa using hb
        rcases List.mem_map.1 ha with ⟨t, ht, rfl⟩
        exact haccE t ht (by rw [hb2, hsid])
      · intro t ht
        rcases List.mem_append.1 ht with htacc | hts
        · exact hinv.2 t htacc
        · have hts2 : t = s := by simpa using hts
          subst hts2
          refine ⟨fun c hc => ?_, fun c hc => ?_, ?_⟩
          · rw [hsid]; exact fun h => hdcE c hc h
          · rw [hsid]; exact fun h => hgcE c hc h
          · rw [hsid]; exact hsysE
    · exact hinv

theorem pushExternal_ne (systemId x : String) (dc gc acc : List SysRec)
    (endpointId : String) (endpoint : Option SysRec)
    (hcons : ∀ s, endpoint = some s → s.id = endpointId)
    (hfail : endpointId = x → endpoint = none)
    (hq : ∀ s ∈ acc, s.id ≠ x) :
    ∀ s ∈ pushExternal systemId dc gc acc endpointId endpoint, s.id ≠ x := by
  cases endpoint with
  | none => exact hq
  | some s =>
    have hsid : s.id = endpointId := hcons s rfl
    have hne : endpointId ≠ x := fun h => Option.noConfusion (hfail h)
    simp only [pushExternal]
    split_ifs with hcond
    · intro t ht
      rcases List.mem_append.1 ht with h1 | h2
      · exact hq t h1
      · have ht2 : t = s := by simpa using h2
        subst ht2
        rw [hsid]
        exact hne
    · exact hq

theorem extStep_extInv (systemId : String) (dc gc acc : List SysRec) (i : IfaceRec)
    (hc1 : ∀ s, i.system1 = some s → s.id = i.system1_id)
    (hc2 : ∀ s, i.system2 = some s → s.id = i.system2_id)
    (hinv : ExtInv systemId dc gc acc) :
    ExtInv systemId dc gc (extStep systemId dc gc acc i) :=
  pushExternal_extInv systemId dc gc _ i.system2_id i.system2 hc2
    (pushExternal_extInv systemId dc gc acc i.system1_id i.system1 hc1 hinv)

theorem extStep_ne (systemId x : String) (dc gc acc : List SysRec) (i : IfaceRec)
    (hc1 : ∀ s, i.system1 = some s → s.id = i.system1_id)
    (hc2 : ∀ s, i.system2 = some s → s.id = i.system2_id)
    (hf1 : i.system1_id = x → i.system1 = none)
    (hf2 : i.system2_id = x → i.system2 = none)
    (hq : ∀ s ∈ acc, s.id ≠ x) :
    ∀ s ∈ extStep systemId dc gc acc i, s.id ≠ x :=
  pushExternal_ne systemId x dc gc _ i.system2_id i.system2 hc2 hf2
    (pushExternal_ne systemId x dc gc acc i.system1_id i.system1 hc1 hf1 hq)

theorem connectedExternal_extInv (systemId : String) (dc gc : List SysRec)
    (ifs : List IfaceRec)
    (hcons1 : ∀ i ∈ ifs, ∀ s, i.system1 = some s → s.id = i.system1_id)
    (hcons2 : ∀ i ∈ ifs, ∀ s, i.system2 = some s → s.id = i.system2_id) :
    ExtInv systemId dc gc (connectedExternalSystems systemId dc gc ifs) :=
  foldl_inv (extStep systemId dc gc) ifs []
    ⟨List.nodup_nil, by simp⟩
    (fun acc i hi hP =>
      extStep_extInv systemId dc gc acc i (hcons1 i hi) (hcons2 i hi) hP)

theorem currentSystemOf_id (systemId : String) (ifs : List IfaceRec) :
    (currentSystemOf systemId ifs).id = systemId := rfl

/-- C5 counterexample: with a (cyclic-store) state in which the grandchildren
list contains a record carrying the root id itself, getAvailableSystems
returns the root id twice: the synthesised current system and the groups are
concatenated without cross-group deduplication. -/
theorem claim5_counterexample :
    ¬ ((((getAvailableSystems "R" [] [⟨"R", "Ghost", "g", some 2⟩] []).map
          SysRec.id).Nodup) ∧
       ((getAvailableSystems "R" [] [⟨"R", "Ghost", "g", some 2⟩] []).map
          SysRec.id).count "R" = 1) := by
  decide

/-- C5 amended: when the children and grandchildren id lists are
duplicate-free and pairwise disjoint, neither contains the root id, and every
enriched endpoint record attached to an interface carries the id of its
endpoint column (all of which hold for data fetched from a store with unique
ids and an acyclic parent relation), getAvailableSystems returns a list with
no duplicate ids that contains the root id exactly once. -/
theorem claim5_amended_dedup (systemId : String) (dc gc : List SysRec)
    (ifs : List IfaceRec)
    (hdc : (dc.map SysRec.id).Nodup)
    (hgc : (gc.map SysRec.id).Nodup)
    (hdisj : ∀ s ∈ dc, ∀ t ∈ gc, s.id ≠ t.id)
    (hrdc : ∀ s ∈ dc, s.id ≠ systemId)
    (hrgc : ∀ s ∈ gc, s.id ≠ systemId)
    (hcons1 : ∀ i ∈ ifs, ∀ s, i.system1 = some s → s.id = i.system1_id)
    (hcons2 : ∀ i ∈ ifs, ∀ s, i.system2 = some s → s.id = i.system2_id) :
    (((getAvailableSystems systemId dc gc ifs).map SysRec.id).Nodup) ∧
    ((getAvailableSystems systemId dc gc ifs).map SysRec.id).count systemId = 1 := by
  have hext := connectedExternal_extInv systemId dc gc ifs hcons1 hcons2
  have hnotmem : systemId ∉
      ((dc ++ gc ++ connectedExternalSystems systemId dc gc ifs).map SysRec.id) := by
    intro hmem
    rcases List.mem_map.1 hmem with ⟨t, ht, htid⟩
    rcases List.mem_append.1 ht with h12 | h3
    · rcases List.mem_append.1 h12 with h1 | h2
      · exact hrdc t h1 htid
      · exact hrgc t h2 htid
    · exact (hext.2 t h3).2.2 htid
  have hrest : ((dc ++ gc ++ connectedExternalSystems systemId dc gc ifs).map
      SysRec.id).Nodup := by
    rw [List.map_append, List.map_append, List.nodup_append, List.nodup_append]
    refine ⟨⟨hdc, hgc, ?_⟩, hext.1, ?_⟩
    · intro a ha hb
      rcases List.mem_map.1 ha with ⟨t, ht, rfl⟩
      rcases List.mem_map.1 hb with ⟨u, hu, huid⟩
      exact hdisj t ht u hu huid.symm
    · intro a ha hb
      rcases List.mem_map.1 hb with ⟨u, hu, rfl⟩
      rcases List.mem_append.1 ha with h1 | h2
      · rcases List.mem_map.1 h1 with ⟨t, ht, htid⟩
        exact (hext.2 u hu).1 t ht htid
      · rcases List.mem_map.1 h2 with ⟨t, ht, htid⟩
        exact (hext.2 u hu).2.1 t ht htid
  constructor
  · show ((currentSystemOf systemId ifs ::
      (dc ++ gc ++ connectedExternalSystems systemId dc gc ifs)).map SysRec.id).Nodup
    rw [List.map_cons, currentSystemOf_id]
    exact List.nodup_cons.2 ⟨hnotmem, hrest⟩
  · show (((currentSystemOf systemId ifs ::
      (dc ++ gc ++ connectedExternalSystems systemId dc gc ifs)).map
        SysRec.id).count systemId) = 1
    rw [List.map_cons, currentSystemOf_id, List.count_cons_self,
      List.count_eq_zero.2 hnotmem]

/-- Witness for C5 amended at a concrete input: a root with one child and no
other rows yields the id list [R, C] with no duplicates and the root exactly
once. -/
theorem claim5_witness :
    (((getAvailableSystems "R" [⟨"C", "Child", "c", some 1⟩] [] []).map
        SysRec.id).Nodup) ∧
    ((getAvailableSystems "R" [⟨"C", "Child", "c", some 1⟩] [] []).map
        SysRec.id).count "R" = 1 :=
  claim5_amended_dedup "R" [⟨"C", "Child", "c", some 1⟩] [] []
    (by decide) (by decide) (by simp) (by decide) (by simp)
    (by simp) (by simp)

/-- C9: when the endpoint lookups for an external id x failed on every
interface touching it (the attached records are null), and x is not the root,
a child or a grandchild, getAvailableSystems never returns an entry with id x,
even though every interface row still appears in one of the three classified
groups. -/
theorem claim9_failed_lookup_absent (systemId x : String) (dc gc : List SysRec)
    (ifs : List IfaceRec)
    (hx0 : x ≠ systemId)
    (hxdc : ∀ s ∈ dc, s.id ≠ x)
    (hxgc : ∀ s ∈ gc, s.id ≠ x)
    (hfail1 : ∀ i ∈ ifs, i.system1_id = x → i.system1 = none)
    (hfail2 : ∀ i ∈ ifs, i.system2_id = x → i.system2 = none)
    (hcons1 : ∀ i ∈ ifs, ∀ s, i.system1 = some s → s.id = i.system1_id)
    (hcons2 : ∀ i ∈ ifs, ∀ s, i.system2 = some s → s.id = i.system2_id) :
    (∀ s ∈ getAvailableSystems systemId dc gc ifs, s.id ≠ x) ∧
    (∀ i ∈ ifs,
      i ∈ (groupInterfacesByLevel systemId dc ifs).directInterfaces ∨
      i ∈ (groupInterfacesByLevel systemId dc ifs).childrenInterfaces ∨
      i ∈ (groupInterfacesByLevel systemId dc ifs).grandchildrenInterfaces) := by
  constructor
  · have hextq : ∀ t ∈ connectedExternalSystems systemId dc gc ifs, t.id ≠ x :=
      foldl_inv (extStep systemId dc gc) ifs [] (by simp)
        (fun acc i hi hq =>
          extStep_ne systemId x dc gc acc i (hcons1 i hi) (hcons2 i hi)
            (hfail1 i hi) (hfail2 i hi) hq)
    intro s hs
    rcases List.mem_cons.1 hs with hcur | hrest
    · rw [hcur, currentSystemOf_id]
      exact fun h => hx0 h.symm
    · rcases List.mem_append.1 hrest with h12 | h3
      · rcases List.mem_append.1 h12 with h1 | h2
        · exact hxdc s h1
        · exact hxgc s h2
      · exact hextq s h3
  · exact fun i hi => group_mem_one systemId dc ifs i hi

/-- Witness for C9 at a concrete input: with an interface from the child C to
the external id X whose X-side lookup failed, the synthesised current-system
entry of the available-systems list does not carry the id X. -/
theorem claim9_witness :
    (⟨"R", "Current System", "", none⟩ : SysRec).id ≠ "X" :=
  (claim9_failed_lookup_absent "R" "X" [⟨"C", "Child", "c", some 1⟩] []
      [⟨"i1", "C", "X", "conn", 0, some ⟨"C", "Child", "c", some 1⟩, none⟩]
      (by decide) (by decide) (by simp) (by decide) (by decide)
      (by
        intro i hi s hs
        simp only [List.mem_singleton] at hi
        subst hi
        cases hs
        rfl)
      (by
        intro i hi s hs
        simp only [List.mem_singleton] at hi
        subst hi
        cases hs)).1
    ⟨"R", "Current System", "", none⟩ (by decide)

/-- C8: the interleaving in which a fetch is started for root r1, the root
changes to r2 (starting a second fetch), the r2 fetch completes and then the
stale r1 fetch completes, is well formed, yet the final state commits the r1
result while the current root is r2: the commit path of fetchInterfaces and
fetchSystemData stores every completion unconditionally, with no guard
comparing the originating root to the current root. -/
theorem claim8_stale_commit :
    WfTrace ⟨"r1", none⟩
      [.changeRoot "r2", .complete "r2", .complete "r1"] = true ∧
    runFetch ⟨"r1", none⟩
      [.changeRoot "r2", .complete "r2", .complete "r1"] = ⟨"r2", some "r1"⟩ ∧
    ("r1" : String) ≠ "r2" := by
  refine ⟨rfl, rfl, by decide⟩

end InterfacePanel

namespace RevisionHistory

theorem mem_dedupFirst (x : String) : ∀ l : List String, x ∈ dedupFirst l ↔ x ∈ l
  | [] => Iff.rfl
  | k :: ks => by
    simp only [dedupFirst, List.mem_cons, List.mem_filter, decide_eq_true_eq]
    by_cases hx : x = k
    · simp [hx]
    · simp [hx, mem_dedupFirst x ks]

theorem dedupFirst_nodup : ∀ l : List String, (dedupFirst l).Nodup
  | [] => List.nodup_nil
  | k :: ks => by
    rw [dedupFirst, List.nodup_cons]
    refine ⟨fun hmem => ?_, (dedupFirst_nodup ks).filter _⟩
    rcases List.mem_filter.1 hmem with ⟨-, hne⟩
    simp at hne

theorem dedupFirst_eq_self : ∀ l : List String, l.Nodup → dedupFirst l = l
  | [], _ => rfl
  | k :: ks, h => by
    rcases List.nodup_cons.1 h with ⟨hk, hks⟩
    rw [dedupFirst, dedupFirst_eq_self ks hks, List.filter_eq_self.2]
    intro a ha
    simp only [decide_eq_true_eq]
    exact fun hak => hk (hak ▸ ha)

theorem lookupJs_nil {V : Type} (k : String) : lookupJs ([] : Snapshot V) k = none := rfl

theorem lookupJs_cons_self {V : Type} (k : String) (v : V) (rest : Snapshot V) :
    lookupJs ((k, v) :: rest) k = some v := by
  simp [lookupJs, List.find?_cons]

theorem lookupJs_cons_ne {V : Type} {k k' : String} (v : V) (rest : Snapshot V)
    (h : k' ≠ k) : lookupJs ((k, v) :: rest) k' = lookupJs rest k' := by
  simp only [lookupJs, List.find?_cons]
  have : ((k, v).1 == k') = false := by
    simp only [beq_eq_false_iff_ne, ne_eq]
    exact fun hk => h hk.symm
  rw [this]

theorem updateEntries_some_some {V : Type} [DecidableEq V] (p n : Snapshot V) :
    updateEntries (some p) (some n) =
      (dedupFirst (p.map (fun kv => kv.1) ++ n.map (fun kv => kv.1))).filterMap
        (fun k =>
          if lookupJs p k ≠ lookupJs n k then
            some ⟨k, lookupJs p k, lookupJs n k⟩
          else none) := rfl

theorem entries_map_key {V : Type} [DecidableEq V] (p n : Snapshot V) :
    ∀ ks : List String,
      ((ks.filterMap (fun k =>
        if lookupJs p k ≠ lookupJs n k then
          some (⟨k, lookupJs p k, lookupJs n k⟩ : DiffEntry V)
        else none)).map (fun e => e.key)) =
      ks.filter (fun k => lookupJs p k ≠ lookupJs n k)
  | [] => rfl
  | k :: ks => by
    by_cases h : lookupJs p k ≠ lookupJs n k
    · rw [List.filterMap_cons, if_pos h, List.map_cons, entries_map_key p n ks,
        List.filter_cons_of_pos (by simpa using h)]
    · rw [List.filterMap_cons, if_neg h, entries_map_key p n ks,
        List.filter_cons_of_neg (by simpa using h)]

theorem filterMap_congr_mem {α β : Type} (f g : α → Option β) :
    ∀ l : List α, (∀ a ∈ l, f a = g a) → l.filterMap f = l.filterMap g
  | [], _ => rfl
  | a :: l, h => by
    rw [List.filterMap_cons, List.filterMap_cons, h a (by simp),
      filterMap_congr_mem f g l (fun a ha => h a (List.mem_cons_of_mem _ ha))]

theorem updateEntries_none_some {V : Type} [DecidableEq V] (n : Snapshot V) :
    updateEntries none (some n) =
      (dedupFirst (n.map (fun kv => kv.1))).filterMap
        (fun k =>
          if (none : Option V) ≠ lookupJs n k then
            some ⟨k, none, lookupJs n k⟩
          else none) := rfl

theorem updateEntries_some_none {V : Type} [DecidableEq V] (p : Snapshot V) :
    updateEntries (some p) none =
      (dedupFirst (p.map (fun kv => kv.1))).filterMap
        (fun k =>
          if lookupJs p k ≠ (none : Option V) then
            some ⟨k, lookupJs p k, none⟩
          else none) := by
  have h0 : updateEntries (some p) none =
      (dedupFirst (p.map (fun kv => kv.1) ++ ([] : List String))).filterMap
        (fun k =>
          if lookupJs p k ≠ (none : Option V) then
            some ⟨k, lookupJs p k, none⟩
          else none) := rfl
  rw [h0, List.append_nil]

theorem updateEntries_none_left {V : Type} [DecidableEq V] :
    ∀ p : Snapshot V, (p.map (fun kv => kv.1)).Nodup →
      updateEntries none (some p) = p.map (fun kv => ⟨kv.1, none, some kv.2⟩)
  | [], _ => rfl
  | (k, v) :: rest, h => by
    rcases List.nodup_cons.1 h with ⟨hk, hrest⟩
    rw [updateEntries_none_some]
    have hkeys : dedupFirst (((k, v) :: rest).map (fun kv => kv.1)) =
        k :: rest.map (fun kv => kv.1) := by
      show k :: (dedupFirst (rest.map (fun kv => kv.1))).filter (fun x => x ≠ k) = _
      rw [dedupFirst_eq_self _ hrest, List.filter_eq_self.2]
      intro a ha
      simp only [decide_eq_true_eq]
      exact fun hak => hk (by rwa [hak] at ha)
    rw [hkeys, List.filterMap_cons]
    have hhead : (if (none : Option V) ≠ lookupJs ((k, v) :: rest) k then
        some (⟨k, none, lookupJs ((k, v) :: rest) k⟩ : DiffEntry V) else none) =
        some ⟨k, none, some v⟩ := by
      rw [lookupJs_cons_self]
      simp
    have htail : (rest.map (fun kv => kv.1)).filterMap
        (fun k0 => if (none : Option V) ≠ lookupJs ((k, v) :: rest) k0 then
          some (⟨k0, none, lookupJs ((k, v) :: rest) k0⟩ : DiffEntry V) else none) =
        (rest.map (fun kv => kv.1)).filterMap
        (fun k0 => if (none : Option V) ≠ lookupJs rest k0 then
          some (⟨k0, none, lookupJs rest k0⟩ : DiffEntry V) else none) := by
      apply filterMap_congr_mem
      intro a ha
      rw [lookupJs_cons_ne _ _ (fun hak => hk (by rwa [hak] at ha))]
    rw [hhead, htail]
    have hrec := updateEntries_none_left rest hrest
    rw [updateEntries_none_some, dedupFirst_eq_self _ hrest] at hrec
    rw [hrec, List.map_cons]

theorem updateEntries_none_right {V : Type} [DecidableEq V] :
    ∀ p : Snapshot V, (p.map (fun kv => kv.1)).Nodup →
      updateEntries (some p) none = p.map (fun kv => ⟨kv.1, some kv.2, none⟩)
  | [], _ => by rw [updateEntries_some_none]; rfl
  | (k, v) :: rest, h => by
    rcases List.nodup_cons.1 h with ⟨hk, hrest⟩
    rw [updateEntries_some_none]
    have hkeys : dedupFirst (((k, v) :: rest).map (fun kv => kv.1)) =
        k :: rest.map (fun kv => kv.1) := by
      show k :: (dedupFirst (rest.map (fun kv => kv.1))).filter (fun x => x ≠ k) = _
      rw [dedupFirst_eq_self _ hrest, List.filter_eq_self.2]
      intro a ha
      simp only [decide_eq_true_eq]
      exact fun hak => hk (by rwa [hak] at ha)
    rw [hkeys, List.filterMap_cons]
    have hhead : (if lookupJs ((k, v) :: rest) k ≠ (none : Option V) then
        some (⟨k, lookupJs ((k, v) :: rest) k, none⟩ : DiffEntry V) else none) =
        some ⟨k, some v, none⟩ := by
      rw [lookupJs_cons_self]
      simp
    have htail : (rest.map (fun kv => kv.1)).filterMap
        (fun k0 => if lookupJs ((k, v) :: rest) k0 ≠ (none : Option V) then
          some (⟨k0, lookupJs ((k, v) :: rest) k0, none⟩ : DiffEntry V) else none) =
        (rest.map (fun kv => kv.1)).filterMap
        (fun k0 => if lookupJs rest k0 ≠ (none : Option V) then
          some (⟨k0, lookupJs rest k0, none⟩ : DiffEntry V) else none) := by
      apply filterMap_congr_mem
      intro a ha
      rw [lookupJs_cons_ne _ _ (fun hak => hk (by rwa [hak] at ha))]
    rw [hhead, htail]
    have hrec := updateEntries_none_right rest hrest
    rw [updateEntries_some_none, dedupFirst_eq_self _ hrest] at hrec
    rw [hrec, List.map_cons]

/-- C4: for an update revision, the rendered entries are exactly one
{key, oldValue, newValue} triple for each key of the deduplicated union of the
two key sets whose old and new values differ, with unchanged keys omitted and
no key repeated; on previous_data {a:1, b:2} and new_data {a:1, b:3, c:4} the
renderer yields exactly the entries b: 2 to 3 and c: absent to 4, with key a
omitted. -/
theorem claim4_update_diff {V : Type} [DecidableEq V] (p n : Snapshot V) :
    ((updateEntries (some p) (some n)).map (fun e => e.key) =
      (dedupFirst (p.map (fun kv => kv.1) ++ n.map (fun kv => kv.1))).filter
        (fun k => lookupJs p k ≠ lookupJs n k)) ∧
    (∀ e ∈ updateEntries (some p) (some n),
      e.oldValue = lookupJs p e.key ∧ e.newValue = lookupJs n e.key ∧
      (e.key ∈ p.map (fun kv => kv.1) ∨ e.key ∈ n.map (fun kv => kv.1)) ∧
      lookupJs p e.key ≠ lookupJs n e.key) ∧
    ((updateEntries (some p) (some n)).map (fun e => e.key)).Nodup ∧
    renderDiff "update" (some [("a", (1 : Int)), ("b", 2)])
        (some [("a", 1), ("b", 3), ("c", 4)]) =
      .updateD [⟨"b", some 2, some 3⟩, ⟨"c", none, some 4⟩] := by
  have hmap : (updateEntries (some p) (some n)).map (fun e => e.key) =
      (dedupFirst (p.map (fun kv => kv.1) ++ n.map (fun kv => kv.1))).filter
        (fun k => lookupJs p k ≠ lookupJs n k) := by
    rw [updateEntries_some_some]
    exact entries_map_key p n _
  refine ⟨hmap, ?_, ?_, by decide⟩
  · intro e he
    rw [updateEntries_some_some] at he
    rcases List.mem_filterMap.1 he with ⟨k, hk, hfk⟩
    by_cases hne : lookupJs p k ≠ lookupJs n k
    · rw [if_pos hne] at hfk
      cases hfk
      refine ⟨rfl, rfl, ?_, hne⟩
      exact List.mem_append.1 ((mem_dedupFirst _ _).1 hk)
    · rw [if_neg hne] at hfk
      cases hfk
  · rw [hmap]
    exact (dedupFirst_nodup _).filter _

/-- Witness for C4 at a concrete input: the key list of the rendered entries
for the example snapshots equals the filtered key union. -/
theorem claim4_witness :
    (updateEntries (some [("a", (1 : Int)), ("b", 2)])
        (some [("a", 1), ("b", 3), ("c", 4)])).map (fun e => e.key) =
      (dedupFirst (([("a", (1 : Int)), ("b", 2)] : Snapshot Int).map (fun kv => kv.1) ++
          ([("a", (1 : Int)), ("b", 3), ("c", 4)] : Snapshot Int).map (fun kv => kv.1))).filter
        (fun k => lookupJs [("a", (1 : Int)), ("b", 2)] k ≠
          lookupJs [("a", (1 : Int)), ("b", 3), ("c", 4)] k) :=
  (claim4_update_diff [("a", (1 : Int)), ("b", 2)] [("a", 1), ("b", 3), ("c", 4)]).1

/-- C10: for an update revision one of whose snapshots is null, the renderer
is total and treats the null snapshot as the empty object: with a null
previous_data every key of new_data is emitted as a pure addition, with a null
new_data every key of previous_data is emitted as a pure removal, and with
both null nothing is emitted. -/
theorem claim10_null_snapshot {V : Type} [DecidableEq V] (p : Snapshot V)
    (hp : (p.map (fun kv => kv.1)).Nodup) :
    renderDiff "update" none (some p) =
      .updateD (p.map (fun kv => ⟨kv.1, none, some kv.2⟩)) ∧
    renderDiff "update" (some p) none =
      .updateD (p.map (fun kv => ⟨kv.1, some kv.2, none⟩)) ∧
    renderDiff (V := V) "update" none none = .updateD [] := by
  refine ⟨?_, ?_, ?_⟩
  · unfold renderDiff
    rw [if_neg (by decide), if_neg (by decide), if_pos rfl,
      updateEntries_none_left p hp]
  · unfold renderDiff
    rw [if_neg (by decide), if_neg (by decide), if_pos rfl,
      updateEntries_none_right p hp]
  · unfold renderDiff
    rw [if_neg (by decide), if_neg (by decide), if_pos rfl]
    rfl

/-- Witness for C10 at a concrete input: a null previous snapshot against the
object with keys a and b renders both keys as pure additions. -/
theorem claim10_witness :
    ((([("a", (1 : Int)), ("b", 2)] : Snapshot Int).map (fun kv => kv.1)).Nodup) ∧
    renderDiff "update" none (some [("a", (1 : Int)), ("b", 2)]) =
      .updateD (([("a", (1 : Int)), ("b", 2)] : Snapshot Int).map
        (fun kv => ⟨kv.1, none, some kv.2⟩)) :=
  ⟨by decide, (claim10_null_snapshot [("a", (1 : Int)), ("b", 2)] (by decide)).1⟩

end RevisionHistory

namespace SystemGraph

theorem grandchildNodes_of_all (cs : List SysRow) :
    ∀ gcs : List SysRow,
      (∀ g ∈ gcs, cs.any (fun c => some c.id == g.parent_id) = true) →
      grandchildNodes cs gcs = gcs.map grandchildNode
  | [], _ => rfl
  | g :: rest, h => by
    have hg : (cs.find? (fun c => some c.id == g.parent_id)).isSome := by
      rw [List.find?_isSome]
      simpa using h g (by simp)
    rcases Option.isSome_iff_exists.1 hg with ⟨w, hw⟩
    show (g :: rest).filterMap _ = _
    rw [List.filterMap_cons]
    rw [show (cs.find? (fun c => some c.id == g.parent_id)).map
        (fun _ => grandchildNode g) = some (grandchildNode g) by rw [hw]; rfl]
    show grandchildNode g :: grandchildNodes cs rest = (g :: rest).map grandchildNode
    rw [grandchildNodes_of_all cs rest (fun g hg => h g (List.mem_cons_of_mem _ hg)),
      List.map_cons]

/-- C3: when every fetched grandchild has its parent among the fetched
children, the graph builder produces exactly 1 + number of children + number
of grandchildren nodes; every relationship edge it emits has both endpoint
ids present in the node set, and an interface with an endpoint outside the
node set contributes no edge to the edge array. -/
theorem claim3_graph_builder (systemId : String) (systemData : SysRow)
    (cs gcs : List SysRow) (ifs : List IfaceRow)
    (h : ∀ g ∈ gcs, cs.any (fun c => some c.id == g.parent_id) = true) :
    (buildNodes systemId systemData cs gcs).length = 1 + cs.length + gcs.length ∧
    (∀ e ∈ relationshipEdges (buildNodes systemId systemData cs gcs) ifs,
      ((buildNodes systemId systemData cs gcs).any (fun nd => nd.id == e.source)) = true ∧
      ((buildNodes systemId systemData cs gcs).any (fun nd => nd.id == e.target)) = true) ∧
    (∀ i ∈ ifs,
      ¬(((buildNodes systemId systemData cs gcs).any
            (fun nd => nd.id == i.system1_id)) = true ∧
        ((buildNodes systemId systemData cs gcs).any
            (fun nd => nd.id == i.system2_id)) = true) →
      ifaceEdge i ∉ buildEdges systemId systemData cs gcs ifs) := by
  refine ⟨?_, ?_, ?_⟩
  · rw [buildNodes, grandchildNodes_of_all cs gcs h]
    simp [List.length_append]
    omega
  · intro e he
    rcases List.mem_map.1 he with ⟨i, hi, rfl⟩
    rcases List.mem_filter.1 hi with ⟨-, hcond⟩
    rw [Bool.and_eq_true] at hcond
    exact ⟨hcond.1, hcond.2⟩
  · intro i _ hnot hmem
    rcases List.mem_append.1 hmem with hmem1 | hmem3
    · rcases List.mem_append.1 hmem1 with hmemc | hmemg
      · rcases List.mem_map.1 hmemc with ⟨c, -, hceq⟩
        have : (childEdge systemId c).label = (ifaceEdge i).label := by rw [hceq]
        simp [childEdge, ifaceEdge] at this
      · rcases List.mem_filterMap.1 hmemg with ⟨g, -, hsome⟩
        rcases Option.map_eq_some'.1 hsome with ⟨p, -, hpeq⟩
        have : (parentEdge p g).label = (ifaceEdge i).label := by rw [hpeq]
        simp [parentEdge, ifaceEdge] at this
    · rcases List.mem_map.1 hmem3 with ⟨j, hj, hjeq⟩
      rcases List.mem_filter.1 hj with ⟨-, hcond⟩
      rw [Bool.and_eq_true] at hcond
      have h1 : j.system1_id = i.system1_id := congrArg GEdge.source hjeq
      have h2 : j.system2_id = i.system2_id := congrArg GEdge.target hjeq
      rw [h1, h2] at hcond
      exact hnot hcond

/-- Witness for C3 at a concrete input: a root with one child, one grandchild
of that child, one internal interface and one interface to an external system
yields exactly three nodes. -/
theorem claim3_witness :
    (buildNodes "R" ⟨"R", "Root", "cat", none⟩
      [⟨"C", "Child", "cat", some "R"⟩] [⟨"G", "Grand", "cat", some "C"⟩]).length =
      1 + 1 + 1 :=
  (claim3_graph_builder "R" ⟨"R", "Root", "cat", none⟩
      [⟨"C", "Child", "cat", some "R"⟩] [⟨"G", "Grand", "cat", some "C"⟩]
      [⟨"i1", "R", "C", "conn", 1⟩, ⟨"i2", "C", "X", "conn", 0⟩]
      (by decide)).1

end SystemGraph

/-- C7 counterexample: a connection drawn in the graph whose interface-creation
RPC fails does not leave the local component state unchanged: onConnect
appends the drawn edge to the edge state before the RPC settles and does not
remove it on failure. -/
theorem claim7_counterexample :
    SystemGraph.onConnect (Except.error "boom") ⟨"a", "b"⟩ ⟨[], false⟩ ≠
      (⟨[], false⟩ : SystemGraph.GraphState) := by
  decide

/-- C7 amended: when the RPC fails, the form-based mutation handler
handleAddInterface leaves the panel state unchanged (form data and open modal
preserved, no refresh), while the graph onConnect leaves everything unchanged
except for the optimistically appended edge, which stays in the local edge
state. -/
theorem claim7_amended_error_state (e : String) :
    (∀ s : InterfacePanel.PanelUIState,
      InterfacePanel.handleAddInterface (Except.error e) s = s) ∧
    (∀ (p : SystemGraph.Connection) (s : SystemGraph.GraphState),
      SystemGraph.onConnect (Except.error e) p s =
        { s with edges := SystemGraph.addEdgeJs p s.edges }) :=
  ⟨fun _ => rfl, fun _ _ => rfl⟩

end SystemTraversal
